import Mathlib

/-!
Verification of the SpleenFollicleCounterQP pyramidal OME-TIFF converter
(`scripts/convert_to_ome_tiff.py`) against its specification.

The Python source is shallowly embedded:
* filenames are `String`s; Python's `str` comparison (lexicographic by
  Unicode code point) is `strLe`, and `sorted` is the insertion sort
  `pythonSorted` (with a total antisymmetric order, any stable sort of the
  same multiset produces the same list, so this coincides with Python's
  Timsort);
* `pathlib.Path.stem` is `stem`, `str.startswith` is `strStartsWith`,
  `Path.glob("*.tif")` is a filter by `strEndsWith · ".tif"` (pathlib's
  glob matches any name ending in the literal suffix, hidden files
  included, case-sensitively on POSIX);
* a numpy 2-D `uint16` array is a `Plane`: explicit height/width and a
  total sample function (samples outside the rectangle are irrelevant to
  every statement, which constrains indices to the rectangle);
* `sys.exit(msg)` / raised exceptions are `Except.error`;
* the TIFF container produced by `tifffile.TiffWriter` is the list of
  pages written, in order, each page carrying its plane, its
  reduced-resolution flag (`subfiletype=1`) and the optional OME-XML
  description attached to it.
-/

/-! ### Python string primitives -/

/-- Python `<=` on single code points: `Char` comparison by code point. -/
def charLt (a b : Char) : Bool := a.toNat < b.toNat

/-- Python string comparison `a <= b`: lexicographic by code point over the
sequences of code points.  Mirrors CPython's `str` ordering. -/
def lexLe : List Char → List Char → Bool
  | [], _ => true
  | _ :: _, [] => false
  | a :: as, b :: bs =>
    if charLt a b then true
    else if charLt b a then false
    else lexLe as bs

/-- Python `a <= b` on `str` values. -/
def strLe (a b : String) : Bool := lexLe a.toList b.toList

/-- The `Prop` form of `strLe`, used to state sortedness. -/
def StrLeP (a b : String) : Prop := strLe a b = true

instance (a b : String) : Decidable (StrLeP a b) := by
  unfold StrLeP; infer_instance

/-- List-level prefix test (helper for `str.startswith` / `str.endswith`). -/
def isPrefixOfB : List Char → List Char → Bool
  | [], _ => true
  | _ :: _, [] => false
  | a :: as, b :: bs => a == b && isPrefixOfB as bs

/-- Python `s.startswith(pre)`. -/
def strStartsWith (s pre : String) : Bool := isPrefixOfB pre.toList s.toList

/-- Python `s.endswith(suf)`. -/
def strEndsWith (s suf : String) : Bool :=
  isPrefixOfB suf.toList.reverse s.toList.reverse

/-- Index of the last `.` in a list of characters (Python `name.rfind('.')`),
`none` when there is no dot. -/
def rfindDot : List Char → Option Nat
  | [] => none
  | c :: rest =>
    match rfindDot rest with
    | some i => some (i + 1)
    | none => if c == '.' then some 0 else none

/-- CPython `pathlib.PurePath.stem` for a plain filename: with
`i = name.rfind('.')`, the stem is `name[:i]` when `0 < i < len(name) - 1`
and the whole name otherwise. -/
def stem (f : String) : String :=
  let cs := f.toList
  match rfindDot cs with
  | some i => if 0 < i ∧ i < cs.length - 1 then String.mk (cs.take i) else f
  | none => f

/-! ### Python `sorted` -/

/-- Ordered insertion into a list (auxiliary to `pythonSorted`). -/
def insertStr (a : String) : List String → List String
  | [] => [a]
  | b :: bs => if strLe a b then a :: b :: bs else b :: insertStr a bs

/-- Python `sorted` on a list of strings.  Because `strLe` is a total
antisymmetric order, every sort of the same multiset yields the same list,
so insertion sort agrees with CPython's Timsort. -/
def pythonSorted : List String → List String
  | [] => []
  | a :: as => insertStr a (pythonSorted as)

/-! ### Channel Set Resolver (`discover_channels`, `channel_name`)

`discover_channels` in the source:
```
tifs = sorted(
    p for p in input_dir.glob("*.tif")
    if p.stem not in ("BLANK",) and not p.stem.startswith("BLANK")
)
if not tifs:
    sys.exit(f"No TIF files found in {input_dir}")
dapi = [p for p in tifs if p.stem in ("DAPI", "DAPI-01")]
others = [p for p in tifs if p.stem not in ("DAPI", "DAPI-01")]
return dapi + others
```
Sorting `Path` objects from one directory compares their filename strings,
so the embedding works on the directory's list of filenames (in arbitrary
enumeration order) and sorts that. -/

/-- The glob-plus-blank filter of `discover_channels`: keep `*.tif` files
whose stem is not `"BLANK"` and does not start with `"BLANK"`. -/
def eligibleTif (f : String) : Bool :=
  strEndsWith f ".tif" && !(stem f == "BLANK") && !(strStartsWith (stem f) "BLANK")

/-- Test for the nuclear-stain channel: `p.stem in ("DAPI", "DAPI-01")`. -/
def isDapiStem (f : String) : Bool := stem f == "DAPI" || stem f == "DAPI-01"

/-- `discover_channels(input_dir)`: `dirName` is the directory's display
name (used only in the error message), `files` its filename listing in
arbitrary enumeration order.  `Except.error` models `sys.exit(msg)`, which
terminates the process with exit status 1. -/
def discover_channels (dirName : String) (files : List String) :
    Except String (List String) :=
  let tifs := pythonSorted (files.filter eligibleTif)
  if tifs.isEmpty then
    Except.error ("No TIF files found in " ++ dirName)
  else
    Except.ok (tifs.filter isDapiStem ++ tifs.filter (fun p => !(isDapiStem p)))

/-- `channel_name(path)`: the stem, with `DAPI-01` normalized to `DAPI`. -/
def channel_name (p : String) : String :=
  let name := stem p
  if name == "DAPI-01" then "DAPI" else name

/-! ### Pyramid Reducer (`downsample_2x`) -/

/-- A 2-D numpy array of unsigned 16-bit samples: shape `(h, w)` plus the
sample at each in-range `(row, col)`.  `px` is total; every statement below
constrains indices to `i < h`, `j < w`. -/
structure Plane where
  h : Nat
  w : Nat
  px : Nat → Nat → Nat

/-- numpy `astype(np.uint16)` applied to an in-range integral value:
reduction modulo 2^16. -/
def u16cast (x : Nat) : Nat := x % 65536

/-- `downsample_2x(img)`:
```
h, w = img.shape
h2, w2 = h - h % 2, w - w % 2
return img[:h2, :w2].reshape(h2 // 2, 2, w2 // 2, 2).mean(axis=(1, 3)).astype(np.uint16)
```
Output sample `(i, j)` is the mean of the 2×2 block at rows `2i, 2i+1` and
columns `2j, 2j+1` of the trimmed input.  numpy computes the mean in
`float64`; for four `uint16` samples the sum is at most 262140 < 2^53 and
division by 4 is exact in binary floating point, so the mean is the exact
rational `(a+b+c+d)/4`, and `astype(np.uint16)` truncates it toward zero —
for a nonnegative value that is Nat floor division — then reduces modulo
2^16 (a no-op for in-range samples, kept for fidelity to the cast).
Every step of the numpy expression is total, including on planes with a
dimension ≤ 1: slicing then yields an empty array, `reshape` of the empty
array to `(0, 2, w2 // 2, 2)` is legal, and `mean` over the two size-2
axes of an empty array produces an empty result without error. -/
def downsample_2x (img : Plane) : Plane :=
  let h2 := img.h - img.h % 2
  let w2 := img.w - img.w % 2
  { h := h2 / 2
    w := w2 / 2
    px := fun i j =>
      u16cast ((img.px (2 * i) (2 * j) + img.px (2 * i) (2 * j + 1) +
                img.px (2 * i + 1) (2 * j) + img.px (2 * i + 1) (2 * j + 1)) / 4) }

/-- A plane of shape `(h, w)` every sample of which equals `v`. -/
def mkUniform (h w v : Nat) : Plane := ⟨h, w, fun _ _ => v⟩

/-- Every in-range sample of `p` equals `v`. -/
def Uniform (p : Plane) (v : Nat) : Prop :=
  ∀ i j, i < p.h → j < p.w → p.px i j = v

/-! ### Plane Metadata Builder (`build_ome_xml`)

The Python function assembles the OME-XML document by string formatting.
The embedding records the document structurally: each record field carries
the value the source interpolates into the corresponding XML attribute, so
a reader parsing the produced XML recovers exactly these fields.
`uuid4()` (random) and the `pixel_size` float (only ever formatted into
the document) are passed through as opaque `String` parameters. -/

/-- One `<Channel ID="Channel:0:{idx}" Name="{name}" SamplesPerPixel="1">`
element. -/
structure ChannelElem where
  idx : Nat
  name : String
  samplesPerPixel : Nat

/-- One `<TiffData FirstC FirstT FirstZ IFD PlaneCount><UUID FileName>`
element. -/
structure TiffDataElem where
  firstC : Nat
  firstT : Nat
  firstZ : Nat
  ifd : Nat
  planeCount : Nat
  fileName : String
  uuid : String

/-- The OME-XML document's content. -/
structure OmeDoc where
  uuid : String
  imageName : String
  bigEndian : Bool
  dimensionOrder : String
  interleaved : Bool
  physicalSizeX : String
  physicalSizeXUnit : String
  physicalSizeY : String
  physicalSizeYUnit : String
  sizeC : Nat
  sizeT : Nat
  sizeX : Nat
  sizeY : Nat
  sizeZ : Nat
  pixelType : String
  channels : List ChannelElem
  tiffdata : List TiffDataElem

/-- The channel-element loop: the source appends
`Channel ID="Channel:0:{len(channel_elements)}"` for each name, so the
element built for the k-th name carries index k (`i` is the running value
of `len(channel_elements)`). -/
def channelElems : List String → Nat → List ChannelElem
  | [], _ => []
  | n :: rest, i => ⟨i, n, 1⟩ :: channelElems rest (i + 1)

/-- The TiffData loop: `for c in range(n_channels)` emits
`FirstC=c, FirstT=0, FirstZ=0, IFD=c, PlaneCount=1` plus the shared UUID
element referencing the output filename. -/
def tiffdataElems (n : Nat) (filename imageUuid : String) : List TiffDataElem :=
  (List.range n).map fun c => ⟨c, 0, 0, c, 1, filename, imageUuid⟩

/-- `build_ome_xml(names, size_y, size_x, pixel_size, filename)` with the
generated `urn:uuid:...` string as an explicit parameter. -/
def build_ome_xml (names : List String) (size_y size_x : Nat)
    (pixel_size : String) (filename : String) (image_uuid : String) : OmeDoc :=
  { uuid := image_uuid
    imageName := filename
    bigEndian := true
    dimensionOrder := "XYCZT"
    interleaved := false
    physicalSizeX := pixel_size
    physicalSizeXUnit := "µm"
    physicalSizeY := pixel_size
    physicalSizeYUnit := "µm"
    sizeC := names.length
    sizeT := 1
    sizeX := size_x
    sizeY := size_y
    sizeZ := 1
    pixelType := "uint16"
    channels := channelElems names 0
    tiffdata := tiffdataElems names.length filename image_uuid }

/-! ### Container Writer (`convert`) -/

/-- One page written to the TIFF container: the pixel plane, whether it is
a reduced-resolution SubIFD page (`subfiletype=1`), and the OME-XML
description attached to it (the first full-resolution page only). -/
structure TiffPage where
  plane : Plane
  isSubIfd : Bool
  description : Option OmeDoc

/-- `NUM_SUBIFDS = 5  # 2x, 4x, 8x, 16x, 32x`. -/
def NUM_SUBIFDS : Nat := 5

/-- `tifffile.imread(path)` over a modelled directory (an association list
from filename to loaded plane); a missing file raises, modelled as
`Except.error`. -/
def readImage (dir : List (String × Plane)) (path : String) :
    Except String Plane :=
  match dir.lookup path with
  | some img => Except.ok img
  | none => Except.error ("cannot read " ++ path)

/-- The per-channel pyramid loop:
`for _ in range(NUM_SUBIFDS): sub = downsample_2x(sub); tw.write(sub, ...)`
appends one SubIFD page per level, each reduced from the previous. -/
def pyramidPages (img : Plane) : Nat → List TiffPage
  | 0 => []
  | Nat.succ k =>
    let sub := downsample_2x img
    ⟨sub, true, none⟩ :: pyramidPages sub k

/-- The channel loop of `convert`: for channel index `i`, write the
full-resolution page (with the OME-XML description when `i == 0`) followed
by its `NUM_SUBIFDS` pyramid SubIFD pages, then continue with the rest. -/
def writeChannels (dir : List (String × Plane)) (ome : OmeDoc) :
    List String → Nat → Except String (List TiffPage)
  | [], _ => Except.ok []
  | path :: rest, i => do
    let img ← readImage dir path
    let tail ← writeChannels dir ome rest (i + 1)
    Except.ok ((⟨img, false, if i == 0 then some ome else none⟩ ::
      pyramidPages img NUM_SUBIFDS) ++ tail)

/-- `convert(input_dir, output_path, pixel_size)`, returning the sequence
of pages written to the container.  Mirrors the source: discover channels,
derive names, read the first channel only to probe `(size_y, size_x)` for
the metadata, build the OME-XML, then write every channel's
full-resolution page plus pyramid.  The source performs no comparison of
the probed dimensions against later channels. -/
def convert (dir : List (String × Plane)) (pixel_size : String)
    (dirName outName imageUuid : String) : Except String (List TiffPage) := do
  let channel_paths ← discover_channels dirName (dir.map Prod.fst)
  match channel_paths with
  | [] => Except.error "no channels"
  | p0 :: _ =>
    let first ← readImage dir p0
    let names := channel_paths.map channel_name
    let ome := build_ome_xml names first.h first.w pixel_size outName imageUuid
    writeChannels dir ome channel_paths 0

/-- Shape-and-flag projection of a conversion result, used to state facts
about written pages without comparing sample functions. -/
def pageShapes (r : Except String (List TiffPage)) :
    Except String (List (Nat × Nat × Bool)) :=
  r.map (List.map fun pg => (pg.plane.h, pg.plane.w, pg.isSubIfd))

/-! ### Blank-image naming used elsewhere in the repository
(`scripts/process_hdl73_channels.py`, `compute_blank_average`): the blank
pair for a position `pos` is loaded from `f"Blank1{pos}.tif"` and
`f"Blank13{pos}.tif"`. -/

/-- Filename of the first blank image for a position. -/
def blank1_filename (pos : String) : String := "Blank1" ++ pos ++ ".tif"

/-- Filename of the cycle-13 blank image for a position. -/
def blank13_filename (pos : String) : String := "Blank13" ++ pos ++ ".tif"

/-! ### Order-theoretic facts about the Python string comparison -/

theorem char_eq_of_not_lt {a b : Char} (h1 : charLt a b = false)
    (h2 : charLt b a = false) : a = b := by
  apply Char.ext
  apply UInt32.ext
  simp only [charLt, Char.toNat, decide_eq_false_iff_not, Nat.not_lt] at h1 h2
  omega

theorem charLt_asymm {a b : Char} (h : charLt a b = true) : charLt b a = false := by
  simp only [charLt, decide_eq_true_eq] at h
  simp only [charLt, decide_eq_false_iff_not]
  omega

theorem charLt_trans {a b c : Char} (h1 : charLt a b = true)
    (h2 : charLt b c = true) : charLt a c = true := by
  simp only [charLt, decide_eq_true_eq] at h1 h2 ⊢
  omega

theorem lexLe_cons {a b : Char} {as bs : List Char} :
    lexLe (a :: as) (b :: bs) = true ↔
      charLt a b = true ∨ (a = b ∧ lexLe as bs = true) := by
  cases hab : charLt a b with
  | true => simp [lexLe, hab]
  | false =>
    cases hba : charLt b a with
    | true =>
      have hne : a ≠ b := by
        intro h; subst h; rw [hab] at hba; cases hba
      simp [lexLe, hab, hba, hne]
    | false =>
      have heq : a = b := char_eq_of_not_lt hab hba
      subst heq
      simp [lexLe, hab]

theorem lexLe_total : ∀ as bs : List Char, lexLe as bs = true ∨ lexLe bs as = true := by
  intro as
  induction as with
  | nil => intro bs; left; rfl
  | cons a as ih =>
    intro bs
    cases bs with
    | nil => right; rfl
    | cons b bs =>
      cases hab : charLt a b with
      | true => left; exact lexLe_cons.mpr (Or.inl hab)
      | false =>
        cases hba : charLt b a with
        | true => right; exact lexLe_cons.mpr (Or.inl hba)
        | false =>
          have heq : a = b := char_eq_of_not_lt hab hba
          rcases ih bs with h | h
          · left; exact lexLe_cons.mpr (Or.inr ⟨heq, h⟩)
          · right; exact lexLe_cons.mpr (Or.inr ⟨heq.symm, h⟩)

theorem lexLe_trans : ∀ as bs cs : List Char,
    lexLe as bs = true → lexLe bs cs = true → lexLe as cs = true := by
  intro as
  induction as with
  | nil => intro bs cs _ _; rfl
  | cons a as ih =>
    intro bs cs h1 h2
    cases bs with
    | nil => simp [lexLe] at h1
    | cons b bs =>
      cases cs with
      | nil => simp [lexLe] at h2
      | cons c cs =>
        rcases lexLe_cons.mp h1 with hlt1 | ⟨heq1, hrec1⟩ <;>
          rcases lexLe_cons.mp h2 with hlt2 | ⟨heq2, hrec2⟩
        · exact lexLe_cons.mpr (Or.inl (charLt_trans hlt1 hlt2))
        · subst heq2; exact lexLe_cons.mpr (Or.inl hlt1)
        · subst heq1; exact lexLe_cons.mpr (Or.inl hlt2)
        · subst heq1; subst heq2
          exact lexLe_cons.mpr (Or.inr ⟨rfl, ih bs cs hrec1 hrec2⟩)

theorem lexLe_antisymm : ∀ as bs : List Char,
    lexLe as bs = true → lexLe bs as = true → as = bs := by
  intro as
  induction as with
  | nil =>
    intro bs h1 h2
    cases bs with
    | nil => rfl
    | cons b bs => simp [lexLe] at h2
  | cons a as ih =>
    intro bs h1 h2
    cases bs with
    | nil => simp [lexLe] at h1
    | cons b bs =>
      rcases lexLe_cons.mp h1 with hlt1 | ⟨heq1, hrec1⟩ <;>
        rcases lexLe_cons.mp h2 with hlt2 | ⟨heq2, hrec2⟩
      · rw [charLt_asymm hlt1] at hlt2; cases hlt2
      · subst heq2; rw [charLt_asymm hlt1] at hlt1; cases hlt1
      · subst heq1; rw [charLt_asymm hlt2] at hlt2; cases hlt2
      · subst heq1; rw [ih bs hrec1 hrec2]

theorem strLe_total (a b : String) : strLe a b = true ∨ strLe b a = true :=
  lexLe_total a.toList b.toList

theorem strLe_trans {a b c : String} (h1 : strLe a b = true)
    (h2 : strLe b c = true) : strLe a c = true :=
  lexLe_trans a.toList b.toList c.toList h1 h2

theorem strLe_antisymm {a b : String} (h1 : strLe a b = true)
    (h2 : strLe b a = true) : a = b := by
  apply String.ext
  exact lexLe_antisymm a.toList b.toList h1 h2

instance : IsTrans String StrLeP := ⟨fun _ _ _ => strLe_trans⟩

instance : IsAntisymm String StrLeP := ⟨fun _ _ => strLe_antisymm⟩

/-! ### Facts about `pythonSorted` -/

theorem insertStr_perm (a : String) (l : List String) :
    (insertStr a l).Perm (a :: l) := by
  induction l with
  | nil => exact List.Perm.refl _
  | cons b bs ih =>
    unfold insertStr
    by_cases h : strLe a b = true
    · simp [h]
    · simp only [h]
      simp only [Bool.false_eq_true, if_false]
      exact (ih.cons b).trans (List.Perm.swap a b bs)

theorem pythonSorted_perm (l : List String) : (pythonSorted l).Perm l := by
  induction l with
  | nil => exact List.Perm.refl _
  | cons a as ih =>
    exact (insertStr_perm a (pythonSorted as)).trans (ih.cons a)

theorem sorted_insertStr (a : String) {l : List String}
    (h : List.Sorted StrLeP l) : List.Sorted StrLeP (insertStr a l) := by
  induction l with
  | nil => simp [insertStr]
  | cons b bs ih =>
    rw [List.sorted_cons] at h
    unfold insertStr
    by_cases hab : strLe a b = true
    · simp only [hab, if_true]
      rw [List.sorted_cons]
      refine ⟨?_, List.sorted_cons.mpr h⟩
      intro x hx
      rcases List.mem_cons.mp hx with rfl | hx
      · exact hab
      · exact strLe_trans hab (h.1 x hx)
    · have hba : strLe b a = true := (strLe_total a b).resolve_left hab
      simp only [hab]
      simp only [Bool.false_eq_true, if_false]
      rw [List.sorted_cons]
      refine ⟨?_, ih h.2⟩
      intro x hx
      rcases List.mem_cons.mp ((insertStr_perm a bs).mem_iff.mp hx) with rfl | hx
      · exact hba
      · exact h.1 x hx

theorem pythonSorted_sorted (l : List String) :
    List.Sorted StrLeP (pythonSorted l) := by
  induction l with
  | nil => simp [pythonSorted]
  | cons a as ih => exact sorted_insertStr a ih

theorem pythonSorted_eq_of_perm {l1 l2 : List String} (h : l1.Perm l2) :
    pythonSorted l1 = pythonSorted l2 :=
  List.eq_of_perm_of_sorted
    ((pythonSorted_perm l1).trans (h.trans (pythonSorted_perm l2).symm))
    (pythonSorted_sorted l1) (pythonSorted_sorted l2)

/-! ### Claims about the Pyramid Reducer -/

/-- C4: `downsample_2x` maps a plane of shape `(h, w)` to one of shape
`(h // 2, w // 2)`; iterating it on a 200×200 plane yields 100×100, 50×50,
25×25, 12×12 and finally 6×6, trimming the odd remainder at 25 → 12. -/
theorem C4_downsample_shape_law :
    (∀ img : Plane,
      (downsample_2x img).h = img.h / 2 ∧ (downsample_2x img).w = img.w / 2) ∧
    (((downsample_2x^[1] (mkUniform 200 200 0)).h, (downsample_2x^[1] (mkUniform 200 200 0)).w) = (100, 100) ∧
     ((downsample_2x^[2] (mkUniform 200 200 0)).h, (downsample_2x^[2] (mkUniform 200 200 0)).w) = (50, 50) ∧
     ((downsample_2x^[3] (mkUniform 200 200 0)).h, (downsample_2x^[3] (mkUniform 200 200 0)).w) = (25, 25) ∧
     ((downsample_2x^[4] (mkUniform 200 200 0)).h, (downsample_2x^[4] (mkUniform 200 200 0)).w) = (12, 12) ∧
     ((downsample_2x^[5] (mkUniform 200 200 0)).h, (downsample_2x^[5] (mkUniform 200 200 0)).w) = (6, 6)) := by
  constructor
  · intro img
    constructor <;> simp only [downsample_2x] <;> omega
  · exact ⟨by decide, by decide, by decide, by decide, by decide⟩

/-- C2 counterexample: on a 1×4 plane (height 1 before reduction, hence 0
after trimming), `downsample_2x` raises no error and returns the
degenerate 0×2 plane — every numpy step of the source expression is total
on the empty slice. -/
theorem C2_counterexample_returns_degenerate :
    (downsample_2x (mkUniform 1 4 5)).h = 0 ∧
    (downsample_2x (mkUniform 1 4 5)).w = 2 := by
  exact ⟨by decide, by decide⟩

/-- C2 (amended): for every 2-D input plane, if either spatial dimension
is ≤ 1 before reduction, `downsample_2x` silently returns a plane whose
corresponding dimension is 0 (a degenerate plane); no error is raised. -/
theorem C2_amended_degenerate_output (img : Plane) :
    (img.h ≤ 1 → (downsample_2x img).h = 0) ∧
    (img.w ≤ 1 → (downsample_2x img).w = 0) := by
  constructor <;> intro h <;> simp only [downsample_2x] <;> omega

theorem C2_amended_degenerate_output_witness :
    (mkUniform 1 4 5).h ≤ 1 ∧ (downsample_2x (mkUniform 1 4 5)).h = 0 :=
  ⟨by decide, (C2_amended_degenerate_output (mkUniform 1 4 5)).1 (by decide)⟩

/-- C7: each output sample of `downsample_2x` equals the arithmetic mean
of its non-overlapping 2×2 source block, computed exactly and truncated —
`(a + b + c + d) / 4` in integer arithmetic — and never overflows the
uint16 range. -/
theorem C7_block_mean_exact (img : Plane)
    (hpx : ∀ i j, i < img.h → j < img.w → img.px i j ≤ 65535)
    (i j : Nat) (hi : i < (downsample_2x img).h) (hj : j < (downsample_2x img).w) :
    (downsample_2x img).px i j =
      (img.px (2 * i) (2 * j) + img.px (2 * i) (2 * j + 1) +
       img.px (2 * i + 1) (2 * j) + img.px (2 * i + 1) (2 * j + 1)) / 4 ∧
    (downsample_2x img).px i j ≤ 65535 := by
  simp only [downsample_2x] at hi hj ⊢
  have hi2 : 2 * i + 1 < img.h := by omega
  have hj2 : 2 * j + 1 < img.w := by omega
  have ha := hpx (2 * i) (2 * j) (by omega) (by omega)
  have hb := hpx (2 * i) (2 * j + 1) (by omega) hj2
  have hc := hpx (2 * i + 1) (2 * j) hi2 (by omega)
  have hd := hpx (2 * i + 1) (2 * j + 1) hi2 hj2
  simp only [u16cast]
  constructor <;> omega

theorem C7_block_mean_exact_witness :
    (downsample_2x (mkUniform 2 2 10)).px 0 0 = 10 ∧
    (downsample_2x (mkUniform 2 2 10)).px 0 0 ≤ 65535 := by
  have h := C7_block_mean_exact (mkUniform 2 2 10)
    (fun _ _ _ _ => (by decide : (10 : Nat) ≤ 65535)) 0 0 (by decide) (by decide)
  exact ⟨h.1.trans (by decide), h.2⟩

theorem uniform_downsample {p : Plane} {v : Nat} (hv : v ≤ 65535)
    (hu : Uniform p v) : Uniform (downsample_2x p) v := by
  intro i j hi hj
  simp only [downsample_2x] at hi hj ⊢
  have h1 : 2 * i + 1 < p.h := by omega
  have h2 : 2 * j + 1 < p.w := by omega
  rw [hu _ _ (by omega) (by omega), hu _ _ (by omega) h2,
    hu _ _ h1 (by omega), hu _ _ h1 h2]
  simp only [u16cast]
  omega

/-- C6: a uniform plane of value `v ∈ [0, 65535]` with both dimensions at
least 2 reduces to a uniform plane of the same value, and every level of
the pyramid built by repeated reduction is uniform with value `v`. -/
theorem C6_uniform_value_law (p : Plane) (v : Nat) (hv : v ≤ 65535)
    (hu : Uniform p v) (hh : 2 ≤ p.h) (hw : 2 ≤ p.w) :
    Uniform (downsample_2x p) v ∧ ∀ k, Uniform (downsample_2x^[k] p) v := by
  refine ⟨uniform_downsample hv hu, ?_⟩
  intro k
  induction k with
  | zero => exact hu
  | succ k ih =>
    rw [Function.iterate_succ_apply']
    exact uniform_downsample hv ih

theorem C6_uniform_value_law_witness :
    (1000 ≤ 65535 ∧ 2 ≤ (mkUniform 200 200 1000).h ∧ 2 ≤ (mkUniform 200 200 1000).w) ∧
    Uniform (downsample_2x (mkUniform 200 200 1000)) 1000 := by
  have h := C6_uniform_value_law (mkUniform 200 200 1000) 1000 (by decide)
    (fun i j _ _ => rfl) (by decide) (by decide)
  exact ⟨⟨by decide, by decide, by decide⟩, h.1⟩

/-! ### Claims about the Channel Set Resolver -/

/-- C10: the blank exclusion is case-sensitive and matches only stems
starting with the exact uppercase marker `BLANK`: files named `blank.tif`,
`Blank1a.tif` and `Blank13c.tif` (the spelling `compute_blank_average`
uses for blank images elsewhere in the repository) are kept as ordinary
channels, while `BLANK.tif` is excluded. -/
theorem C10_blank_marker_case_sensitive :
    discover_channels "d"
        [blank1_filename "a", "blank.tif", blank13_filename "c", "DAPI.tif", "BLANK.tif"]
      = Except.ok ["DAPI.tif", "Blank13c.tif", "Blank1a.tif", "blank.tif"] ∧
    Except.map (List.map channel_name)
        (discover_channels "d"
          [blank1_filename "a", "blank.tif", blank13_filename "c", "DAPI.tif", "BLANK.tif"])
      = Except.ok ["DAPI", "Blank13c", "Blank1a", "blank"] ∧
    eligibleTif "blank.tif" = true ∧
    eligibleTif (blank1_filename "a") = true ∧
    eligibleTif (blank13_filename "c") = true ∧
    eligibleTif "BLANK.tif" = false :=
  ⟨rfl, rfl, by decide, by decide, by decide, by decide⟩

theorem discover_channels_ok {d : String} {files r : List String}
    (hr : discover_channels d files = Except.ok r) :
    r = (pythonSorted (files.filter eligibleTif)).filter isDapiStem ++
        (pythonSorted (files.filter eligibleTif)).filter (fun p => !(isDapiStem p)) := by
  simp only [discover_channels] at hr
  by_cases hemp : (pythonSorted (files.filter eligibleTif)).isEmpty
  · rw [if_pos hemp] at hr
    cases hr
  · rw [if_neg hemp] at hr
    injection hr with h
    exact h.symm

theorem discover_channels_ok_perm {d : String} {files r : List String}
    (hr : discover_channels d files = Except.ok r) :
    r.Perm (files.filter eligibleTif) := by
  rw [discover_channels_ok hr]
  exact (List.filter_append_perm _ _).trans (pythonSorted_perm _)

/-- C3 counterexample: a directory holding both `DAPI.tif` and
`DAPI-01.tif` yields the normalized name list `["DAPI", "DAPI"]`, which
contains a duplicate. -/
theorem C3_counterexample_duplicate_dapi :
    Except.map (List.map channel_name)
        (discover_channels "d" ["DAPI.tif", "DAPI-01.tif"])
      = Except.ok ["DAPI", "DAPI"] ∧
    ¬ (["DAPI", "DAPI"] : List String).Nodup :=
  ⟨rfl, by decide⟩

/-- C3 (amended): the normalized channel names of one conversion run are
pairwise distinct provided the eligible files have pairwise-distinct stems
and the directory does not contain both a file with stem `DAPI` and one
with stem `DAPI-01` (in which case both normalize to `DAPI` and collide). -/
theorem C3_amended_names_nodup (d : String) (files : List String)
    (hstem : ((files.filter eligibleTif).map stem).Nodup)
    (hdapi : ¬ ("DAPI" ∈ (files.filter eligibleTif).map stem ∧
                "DAPI-01" ∈ (files.filter eligibleTif).map stem))
    (r : List String) (hr : discover_channels d files = Except.ok r) :
    (r.map channel_name).Nodup := by
  have hperm : (r.map stem).Perm ((files.filter eligibleTif).map stem) :=
    (discover_channels_ok_perm hr).map stem
  have hnd : (r.map stem).Nodup := (hperm.symm).nodup hstem
  have hmapeq : r.map channel_name =
      (r.map stem).map (fun s => if s == "DAPI-01" then "DAPI" else s) := by
    rw [List.map_map]
    rfl
  rw [hmapeq]
  apply List.Nodup.map_on _ hnd
  intro x hx y hy hxy
  by_cases hx1 : x == "DAPI-01"
  · by_cases hy1 : y == "DAPI-01"
    · rw [beq_iff_eq] at hx1 hy1
      rw [hx1, hy1]
    · rw [if_pos hx1, if_neg hy1] at hxy
      rw [beq_iff_eq] at hx1
      exfalso
      exact hdapi ⟨hxy ▸ hperm.mem_iff.mp hy, hx1 ▸ hperm.mem_iff.mp hx⟩
  · by_cases hy1 : y == "DAPI-01"
    · rw [if_neg hx1, if_pos hy1] at hxy
      rw [beq_iff_eq] at hy1
      exfalso
      exact hdapi ⟨hxy ▸ hperm.mem_iff.mp hx, hy1 ▸ hperm.mem_iff.mp hy⟩
    · rw [if_neg hx1, if_neg hy1] at hxy
      exact hxy

theorem C3_amended_names_nodup_witness :
    (((["CD3.tif", "DAPI.tif"] : List String).filter eligibleTif).map stem).Nodup ∧
    discover_channels "d" ["CD3.tif", "DAPI.tif"] = Except.ok ["DAPI.tif", "CD3.tif"] ∧
    ((["DAPI.tif", "CD3.tif"] : List String).map channel_name).Nodup :=
  ⟨by decide, rfl,
    C3_amended_names_nodup "d" ["CD3.tif", "DAPI.tif"] (by decide)
      (by decide) ["DAPI.tif", "CD3.tif"] rfl⟩

/-- C5 counterexample: with channels `CD3.tif` and `CD3-x.tif` (no nuclear
stain), the resolver returns `["CD3-x.tif", "CD3.tif"]` — sorted by
filename, where the hyphen (code point 45) precedes the dot of `.tif`
(46) — yet the normalized names satisfy `CD3 < CD3-x`, so the output is
not in ascending lexicographic order of name. -/
theorem C5_counterexample_name_order :
    discover_channels "d" ["CD3.tif", "CD3-x.tif"]
      = Except.ok ["CD3-x.tif", "CD3.tif"] ∧
    strLe (channel_name "CD3.tif") (channel_name "CD3-x.tif") = true ∧
    strLe (channel_name "CD3-x.tif") (channel_name "CD3.tif") = false :=
  ⟨rfl, by decide, by decide⟩

/-- C5 (amended): the resolver's output is a deterministic function of the
set of filenames (identical directory contents in any enumeration order
yield the identical list), and consists of the nuclear-stain files first
followed by all other channels, each part in ascending lexicographic order
of full filename (not of normalized name). -/
theorem C5_amended_filename_order (d : String) (l1 l2 : List String)
    (hperm : l1.Perm l2) :
    discover_channels d l1 = discover_channels d l2 ∧
    ∀ r, discover_channels d l1 = Except.ok r →
      ∃ dapiPart othersPart,
        r = dapiPart ++ othersPart ∧
        (∀ f ∈ dapiPart, isDapiStem f = true) ∧
        (∀ f ∈ othersPart, isDapiStem f = false) ∧
        List.Sorted StrLeP dapiPart ∧
        List.Sorted StrLeP othersPart := by
  constructor
  · have hse : pythonSorted (List.filter eligibleTif l1)
        = pythonSorted (List.filter eligibleTif l2) :=
      pythonSorted_eq_of_perm (hperm.filter eligibleTif)
    simp only [discover_channels, hse]
  · intro r hr
    refine ⟨_, _, discover_channels_ok hr, ?_, ?_, ?_, ?_⟩
    · intro f hf
      exact (List.mem_filter.mp hf).2
    · intro f hf
      have h := (List.mem_filter.mp hf).2
      simpa using h
    · exact List.Pairwise.sublist (List.filter_sublist _) (pythonSorted_sorted _)
    · exact List.Pairwise.sublist (List.filter_sublist _) (pythonSorted_sorted _)

theorem C5_amended_filename_order_witness :
    discover_channels "d" ["CD45.tif", "DAPI.tif"]
      = discover_channels "d" ["DAPI.tif", "CD45.tif"] ∧
    ∃ dapiPart othersPart,
      (["DAPI.tif", "CD45.tif"] : List String) = dapiPart ++ othersPart ∧
      (∀ f ∈ dapiPart, isDapiStem f = true) ∧
      (∀ f ∈ othersPart, isDapiStem f = false) ∧
      List.Sorted StrLeP dapiPart ∧
      List.Sorted StrLeP othersPart := by
  have h := C5_amended_filename_order "d" ["CD45.tif", "DAPI.tif"]
    ["DAPI.tif", "CD45.tif"] (List.Perm.swap "DAPI.tif" "CD45.tif" [])
  exact ⟨h.1, h.2 ["DAPI.tif", "CD45.tif"] rfl⟩

/-- C9: every `*.tif` file whose stem is `BLANK` or starts with `BLANK` is
excluded from the resolved channel list, and when no eligible channel file
remains the resolver terminates with the no-TIF-files error (`sys.exit`
with a message: exit status 1) instead of returning an empty list. -/
theorem C9_blank_exclusion_and_empty_error (d : String) (files : List String) :
    (files.filter eligibleTif = [] →
      discover_channels d files = Except.error ("No TIF files found in " ++ d)) ∧
    (∀ f, f ∈ files → strEndsWith f ".tif" = true →
      (stem f = "BLANK" ∨ strStartsWith (stem f) "BLANK" = true) →
      ∀ r, discover_channels d files = Except.ok r → f ∉ r) := by
  constructor
  · intro h
    simp [discover_channels, h, pythonSorted]
  · intro f _ _ hbl r hr hmem
    have helig : eligibleTif f = true :=
      (List.mem_filter.mp ((discover_channels_ok_perm hr).mem_iff.mp hmem)).2
    simp only [eligibleTif, Bool.and_eq_true, Bool.not_eq_true'] at helig
    rcases hbl with hbl | hbl
    · rw [beq_eq_false_iff_ne] at helig
      exact helig.1.2 hbl
    · rw [hbl] at helig
      cases helig.2

theorem C9_blank_exclusion_and_empty_error_witness :
    discover_channels "dir" ["BLANK.tif"]
      = Except.error ("No TIF files found in " ++ "dir") ∧
    "BLANK2.tif" ∉ (["DAPI.tif"] : List String) :=
  ⟨(C9_blank_exclusion_and_empty_error "dir" ["BLANK.tif"]).1 (by decide),
   (C9_blank_exclusion_and_empty_error "dir" ["BLANK2.tif", "DAPI.tif"]).2
     "BLANK2.tif" (by decide) (by decide) (Or.inr (by decide)) ["DAPI.tif"] rfl⟩

/-! ### Claims about the Plane Metadata Builder -/

theorem channelElems_map_name (names : List String) :
    ∀ i, (channelElems names i).map ChannelElem.name = names := by
  induction names with
  | nil => intro i; rfl
  | cons n rest ih =>
    intro i
    simp only [channelElems, List.map_cons, ih]

/-- C8: the metadata document built by `build_ome_xml` reports `SizeC`
equal to the channel count, the channel names in stored order, the
supplied pixel size as both `PhysicalSizeX` and `PhysicalSizeY`, and one
`TiffData` element per channel index `i` with `FirstC = i`, `FirstT = 0`,
`FirstZ = 0`, `PlaneCount = 1` and `IFD = i`. -/
theorem C8_metadata_content (names : List String) (size_y size_x : Nat)
    (pixel_size filename image_uuid : String) :
    (build_ome_xml names size_y size_x pixel_size filename image_uuid).sizeC
        = names.length ∧
    (build_ome_xml names size_y size_x pixel_size filename image_uuid).channels.map
        ChannelElem.name = names ∧
    (build_ome_xml names size_y size_x pixel_size filename image_uuid).physicalSizeX
        = pixel_size ∧
    (build_ome_xml names size_y size_x pixel_size filename image_uuid).physicalSizeY
        = pixel_size ∧
    (build_ome_xml names size_y size_x pixel_size filename image_uuid).tiffdata.length
        = names.length ∧
    ∀ i (h : i < (build_ome_xml names size_y size_x pixel_size filename image_uuid).tiffdata.length),
      (build_ome_xml names size_y size_x pixel_size filename image_uuid).tiffdata.get ⟨i, h⟩
        = ⟨i, 0, 0, i, 1, filename, image_uuid⟩ := by
  refine ⟨rfl, channelElems_map_name names 0, rfl, rfl, ?_, ?_⟩
  · simp [build_ome_xml, tiffdataElems]
  · intro i h
    simp [build_ome_xml, tiffdataElems, List.get_eq_getElem]

theorem C8_metadata_content_witness :
    (build_ome_xml ["DAPI", "CD3e"] 200 200 "0.5" "out.ome.tif" "u").sizeC = 2 ∧
    (build_ome_xml ["DAPI", "CD3e"] 200 200 "0.5" "out.ome.tif" "u").channels.map
        ChannelElem.name = ["DAPI", "CD3e"] ∧
    (build_ome_xml ["DAPI", "CD3e"] 200 200 "0.5" "out.ome.tif" "u").physicalSizeX = "0.5" ∧
    (build_ome_xml ["DAPI", "CD3e"] 200 200 "0.5" "out.ome.tif" "u").physicalSizeY = "0.5" ∧
    (build_ome_xml ["DAPI", "CD3e"] 200 200 "0.5" "out.ome.tif" "u").tiffdata.length = 2 ∧
    (build_ome_xml ["DAPI", "CD3e"] 200 200 "0.5" "out.ome.tif" "u").tiffdata.get
        ⟨1, by decide⟩ = ⟨1, 0, 0, 1, 1, "out.ome.tif", "u"⟩ := by
  have h := C8_metadata_content ["DAPI", "CD3e"] 200 200 "0.5" "out.ome.tif" "u"
  exact ⟨h.1, h.2.1, h.2.2.1, h.2.2.2.1, h.2.2.2.2.1,
    h.2.2.2.2.2 1 (by decide)⟩

/-! ### Claims about the Container Writer -/

/-- C1 counterexample: a directory with a 2×2 channel `A.tif` and a 3×3
channel `B.tif` converts without any error; the container receives the
2×2 full-resolution plane, its pyramid, then the 3×3 full-resolution
plane and its pyramid — two full-resolution planes of differing
dimensions in one output file, no abort. -/
theorem C1_counterexample_mismatch_written :
    pageShapes (convert [("A.tif", mkUniform 2 2 7), ("B.tif", mkUniform 3 3 9)]
        "0.5" "d" "out.ome.tif" "u")
      = Except.ok
          [(2, 2, false), (1, 1, true), (0, 0, true), (0, 0, true), (0, 0, true), (0, 0, true),
           (3, 3, false), (1, 1, true), (0, 0, true), (0, 0, true), (0, 0, true), (0, 0, true)] :=
  rfl

/-- C1 (amended): `convert` performs no dimension check at all: for any
two channel planes `p`, `q` — matching or mismatched — conversion
succeeds, writing each channel's full-resolution plane with its own
dimensions, while the embedded metadata document carries the first
channel's dimensions only. -/
theorem C1_amended_no_dimension_check (p q : Plane) (ps d out u : String) :
    ∃ pages, convert [("A.tif", p), ("B.tif", q)] ps d out u = Except.ok pages ∧
      (pages.filter (fun pg => !pg.isSubIfd)).map (fun pg => (pg.plane.h, pg.plane.w))
        = [(p.h, p.w), (q.h, q.w)] ∧
      pages.head?.map (fun pg => pg.description.map fun o => (o.sizeY, o.sizeX))
        = some (some (p.h, p.w)) := by
  refine ⟨_, rfl, ?_, ?_⟩ <;> rfl
